import Mathlib

/-!
Verification development for the maintainer application bot
(`src/maintainer_bot.py`).  The Python source is shallowly embedded:
text values are explicit character lists, Python dicts are association
lists, timestamps are natural numbers, and each handler becomes a pure
function from its inputs and the relevant shared state to its successor
state and the updated shared state.
-/

namespace MaintainerBot

/-- Text values of the embedding: explicit character lists, so that every
definition evaluates inside the kernel. -/
abbrev Str := List Char

/-- Character list of a string literal. -/
def strOf (s : String) : Str := s.data

/-! ## Association lists (embedding of Python dicts) -/

/-- Lookup of a key, mirroring `d[k]` / `k in d` / `d.get(k)`. -/
def alookup {κ α : Type} [DecidableEq κ] (k : κ) : List (κ × α) → Option α
  | [] => none
  | p :: rest => if p.1 = k then some p.2 else alookup k rest

/-- Deletion of a key, mirroring `del d[k]` (dict keys are unique, so
removing every pair with the key is the same operation). -/
def aerase {κ α : Type} [DecidableEq κ] (k : κ) (l : List (κ × α)) : List (κ × α) :=
  l.filter (fun p => !decide (p.1 = k))

/-- Assignment `d[k] = v`: replace the existing binding or append a new one. -/
def aset {κ α : Type} [DecidableEq κ] (k : κ) (v : α) : List (κ × α) → List (κ × α)
  | [] => [(k, v)]
  | p :: rest => if p.1 = k then (k, v) :: rest else p :: aset k v rest

theorem alookup_aerase_self {κ α : Type} [DecidableEq κ] (k : κ) (l : List (κ × α)) :
    alookup k (aerase k l) = none := by
  induction l with
  | nil => rfl
  | cons p rest ih =>
      by_cases h : p.1 = k
      · simpa [aerase, h] using ih
      · simpa [aerase, alookup, h] using ih

theorem aerase_of_alookup_none {κ α : Type} [DecidableEq κ] (k : κ) (l : List (κ × α))
    (h : alookup k l = none) : aerase k l = l := by
  induction l with
  | nil => rfl
  | cons p rest ih =>
      by_cases hp : p.1 = k
      · simp [alookup, hp] at h
      · simp only [alookup, if_neg hp] at h
        simp [aerase, hp] at ih ⊢
        exact ih h

theorem alookup_aset_self {κ α : Type} [DecidableEq κ] (k : κ) (v : α) (l : List (κ × α)) :
    alookup k (aset k v l) = some v := by
  induction l with
  | nil => simp [aset, alookup]
  | cons p rest ih =>
      by_cases h : p.1 = k
      · simp [aset, alookup, h]
      · simp [aset, alookup, h, ih]

/-! ## Python `str.splitlines` over character lists

`str.splitlines` splits at every line-boundary character (`\n`, `\r`,
vertical tab, form feed, the separator control characters, NEL, LS, PS),
treating `\r\n` as a single boundary, and emits no trailing empty line
for text that ends in a boundary. -/

/-- Code points Python treats as line boundaries in `str.splitlines`. -/
def isLineBoundary (c : Char) : Bool :=
  [10, 13, 11, 12, 28, 29, 30, 133, 8232, 8233].contains c.toNat

def splitlinesAux : List Char → List Char → List (List Char)
  | [], cur => if cur.isEmpty then [] else [cur.reverse]
  | '\r' :: '\n' :: rest, cur => cur.reverse :: splitlinesAux rest []
  | c :: rest, cur =>
      if isLineBoundary c then cur.reverse :: splitlinesAux rest []
      else splitlinesAux rest (c :: cur)

/-- Embedding of Python `content.splitlines()`. -/
def pySplitlines (s : Str) : List Str := splitlinesAux s []

/-- Embedding of Python `content.endswith('\n')`. -/
def endsWithNl (s : Str) : Bool := s.getLast? == some '\n'

/-! ## RegistrySync (`add_maintainer_to_github`, lines 183-240)

The remote registry file is a content plus a version token (the blob
SHA the contents API reports).  The conditional PUT keyed on that token
is the optimistic-concurrency contract of the remote contents API: a
stale token rejects the write and leaves the remote unchanged; a
successful write installs the new content under a fresh token. -/

structure Remote where
  content : Str
  sha : Nat
deriving DecidableEq, Repr

/-- Conditional write of the remote contents API: succeeds exactly when
the presented version token matches the remote's current one. -/
def remotePut (remote : Remote) (baseSha : Nat) (newContent : Str) : Bool × Remote :=
  if baseSha = remote.sha then (true, ⟨newContent, remote.sha + 1⟩) else (false, remote)

inductive CommitOutcome
  | configMissing
  | fetchFailed
  | alreadyPresent
  | committed
  | versionConflict
deriving DecidableEq, Repr

/-- The boolean the Python function returns as its first component. -/
def CommitOutcome.isSuccess : CommitOutcome → Bool
  | .alreadyPresent => true
  | .committed => true
  | _ => false

/-- New file content built by `add_maintainer_to_github` lines 215-220:
ensure a trailing newline, then append the new line on its own line. -/
def buildNewContent (cur newLine : Str) : Str :=
  (if endsWithNl cur then cur else cur ++ strOf "\n") ++ newLine ++ strOf "\n"

/-- Embedding of `add_maintainer_to_github` (lines 183-240).  `cfgOk` is
whether token, repo and path are configured; `fetched` is what the GET
returned (`none` for a non-200 fetch); `remoteAtPut` is the remote state
at the moment the PUT executes, which may differ from the fetched state
if the remote changed in between.  In this model the only PUT failure is
a stale version token; the Python reports it as a failed commit and
returns `False` with the status text. -/
def add_maintainer_to_github (cfgOk : Bool) (newLine : Str) (fetched : Option (Str × Nat))
    (remoteAtPut : Remote) : CommitOutcome × Remote :=
  if !cfgOk then (.configMissing, remoteAtPut)
  else
    match fetched with
    | none => (.fetchFailed, remoteAtPut)
    | some (cur, sha) =>
        if (pySplitlines cur).contains newLine then (.alreadyPresent, remoteAtPut)
        else
          match remotePut remoteAtPut sha (buildNewContent cur newLine) with
          | (true, r) => (.committed, r)
          | (false, r) => (.versionConflict, r)

/-- Fetch-then-commit against a remote that does not change in between. -/
def add_maintainer (newLine : Str) (remote : Remote) : CommitOutcome × Remote :=
  add_maintainer_to_github true newLine (some (remote.content, remote.sha)) remote

/-! ## Durable bot state

`pending_apps` maps an applicant id to the minimal projection stored at
finalize (lines 643-648); `rejected_cooldowns` maps an applicant id to
either a bare expiry timestamp (legacy format) or a record with expiry
and last-known display name (lines 283-287, 1413-1417).  Time is a
natural number; `datetime.now() + timedelta(days=d)` becomes `now + d`
with one unit per day. -/

structure AppRec where
  maintainer_alias : Str
  name : Str
deriving DecidableEq, Repr

inductive CooldownData
  | legacy (expiry : Nat)
  | structured (expiry : Nat) (name : Str)
deriving DecidableEq, Repr

/-- The expiry a cooldown entry carries in either storage format. -/
def CooldownData.expiry : CooldownData → Nat
  | .legacy e => e
  | .structured e _ => e

structure BotData where
  pending : List (Nat × AppRec)
  cooldowns : List (Nat × CooldownData)
deriving DecidableEq, Repr

/-! ## Intake entry guard (`start`, lines 261-338) -/

/-- Cooldown check at intake entry (lines 279-303): a live entry blocks
with its expiry; an expired entry is deleted on the spot (lazy pruning);
no entry means no ban. -/
def cooldownGate (uid now : Nat) (cds : List (Nat × CooldownData)) :
    Option Nat × List (Nat × CooldownData) :=
  match alookup uid cds with
  | some d => if now < d.expiry then (some d.expiry, cds) else (none, aerase uid cds)
  | none => (none, cds)

inductive StartResult
  | ended
  | rules
deriving DecidableEq, Repr

/-- Embedding of `start` (lines 261-338): no public handle, a live
cooldown, or an existing pending application each end the conversation
before the first interview state; otherwise the rules prompt is shown. -/
def start (hasUsername : Bool) (uid now : Nat) (bd : BotData) : StartResult × BotData :=
  if !hasUsername then (.ended, bd)
  else
    match cooldownGate uid now bd.cooldowns with
    | (some _, cds') => (.ended, { bd with cooldowns := cds' })
    | (none, cds') =>
        let bd' : BotData := { bd with cooldowns := cds' }
        if (alookup uid bd'.pending).isSome then (.ended, bd') else (.rules, bd')

/-! ## Admin cooldown listing (`check_cooldowns`, lines 1003-1056) -/

/-- Embedding of `check_cooldowns`: the first component is the listed
(uid, expiry) pairs, the unexpired entries; the second is the stored map
after the expired keys collected during the listing are deleted. -/
def check_cooldowns (now : Nat) (cds : List (Nat × CooldownData)) :
    List (Nat × Nat) × List (Nat × CooldownData) :=
  let toRemove := (cds.filter (fun p => !decide (now < p.2.expiry))).map (fun p => p.1)
  ((cds.filter (fun p => decide (now < p.2.expiry))).map (fun p => (p.1, p.2.expiry)),
   toRemove.foldl (fun acc u => aerase u acc) cds)

/-! ## TemplateCatalog (lines 857-1001) -/

/-- The template catalog shipped with the bot (lines 860-867). -/
def DEFAULT_TEMPLATES : List (Str × Str) := [
  (strOf "source", strOf "❌ <b>Source Code Issue:</b> The provided device/vendor trees or kernel source are incomplete, inaccessible, or do not meet our standards."),
  (strOf "ownership", strOf "❌ <b>Device Ownership:</b> We require maintainers to physically own the device. Proof of ownership was insufficient."),
  (strOf "history", strOf "❌ <b>Maintainer History:</b> Your maintenance history or activity levels do not meet our current requirements."),
  (strOf "quality", strOf "❌ <b>Quality Standards:</b> The ROM stability or provided builds do not meet AfterlifeOS quality criteria."),
  (strOf "duplicate", strOf "❌ <b>Device Taken:</b> This device already has an active maintainer. We are not looking for a co-maintainer at this time."),
  (strOf "other", strOf "❌ <b>Application Declined:</b> Thank you for your interest, but we cannot accept your application at this time.")]

/-- Embedding of `remove_template` (lines 985-1001): refuses an unknown
key, otherwise deletes the binding (any key, `other` included). -/
def remove_template (ts : List (Str × Str)) (key : Str) : Option (List (Str × Str)) :=
  if (alookup key ts).isSome then some (aerase key ts) else none

/-- Reason text resolution in `handle_admin_decision` line 1183:
`rejection_templates.get(reason_key, "Application Declined.")`. -/
def resolveReason (ts : List (Str × Str)) (key : Str) : Str :=
  match alookup key ts with
  | some t => t
  | none => strOf "Application Declined."

/-! ## RejectExecute (`finalize_rejection`, lines 1319-1421) -/

/-- The note suffix appended to the reason (line 1333). -/
def noteSuffix : Option Str → Str
  | none => []
  | some n => strOf "\n\n📝 <b>Admin Note:</b>\n<i>" ++ n ++ strOf "</i>"

structure RejectOut where
  notifiedUser : Bool
  fullReason : Str
  resumeDateShown : Bool
  bannerReason : Str
  bannerCooldownDays : Option Nat
  pending' : List (Nat × AppRec)
  cooldowns' : List (Nat × CooldownData)
  userDataCleared : Bool
deriving DecidableEq, Repr

/-- Embedding of `finalize_rejection` (lines 1319-1421): build the full
reason, notify the applicant (with a resume date when a cooldown is
selected), stamp the admin summary with the decision banner, drop the
applicant from the pending map, clear the stored interview answers, and
write a cooldown entry exactly when `days > 0`. -/
def finalize_rejection (uid : Nat) (base : Str) (note : Option Str) (days now : Nat)
    (bd : BotData) : RejectOut :=
  let savedName := match alookup uid bd.pending with
    | some a => a.name
    | none => strOf "Unknown"
  { notifiedUser := true
    fullReason := base ++ noteSuffix note
    resumeDateShown := decide (0 < days)
    bannerReason := base
    bannerCooldownDays := if 0 < days then some days else none
    pending' := aerase uid bd.pending
    cooldowns' :=
      if 0 < days then aset uid (.structured (now + days) savedName) bd.cooldowns
      else bd.cooldowns
    userDataCleared := true }

/-! ## AcceptExecute (`handle_admin_decision`, `accept` branch, lines 1242-1316) -/

inductive AcceptGh
  | resolved (o : CommitOutcome)
  | notFoundInMemory
deriving DecidableEq, Repr

structure AcceptOut where
  inviteAttempted : Bool
  gh : AcceptGh
  pending' : List (Nat × AppRec)
  userDataCleared : Bool
  adminBannerEdited : Bool
  userNotified : Bool
  remote' : Remote
deriving DecidableEq, Repr

/-- Embedding of the `accept` branch: always attempts the invite link,
edits the admin summary and notifies the applicant; the registry commit,
pending-map removal and interview-data clearing happen only when the
applicant is still in the pending map, otherwise the GitHub action
reports that the user data could not be found. -/
def acceptExecute (uid : Nat) (bd : BotData) (cfgOk : Bool) (fetched : Option (Str × Nat))
    (remote : Remote) : AcceptOut :=
  match alookup uid bd.pending with
  | some app =>
      let r := add_maintainer_to_github cfgOk app.maintainer_alias fetched remote
      { inviteAttempted := true, gh := .resolved r.1, pending' := aerase uid bd.pending
        userDataCleared := true, adminBannerEdited := true, userNotified := true
        remote' := r.2 }
  | none =>
      { inviteAttempted := true, gh := .notFoundInMemory, pending' := bd.pending
        userDataCleared := false, adminBannerEdited := true, userNotified := true
        remote' := remote }

/-! ## IntakeEngine: conversation states and interview record -/

/-- The nineteen conversation states (lines 243-247). -/
inductive ConvState
  | RULES_AGREEMENT | SOURCE_TYPE_CHECK | PRIVATE_REASON | PRIVATE_ACCESS_AGREEMENT
  | FULL_NAME | MAINTAINER_ALIAS | GITHUB_URL | DEVICE_INFO
  | DEVICE_TREE | DEVICE_COMMON | VENDOR_TREE | VENDOR_COMMON
  | KERNEL_SOURCE | SUPPORT_LINK | OFFICIAL_ROMS | DURATION
  | CONTRIBUTION | WHY_JOIN | SUITABILITY
deriving DecidableEq, Repr

/-- A handler's successor: another conversation state, or
`ConversationHandler.END`. -/
inductive Next
  | state (s : ConvState)
  | ended
deriving DecidableEq, Repr

/-- The per-applicant interview answers accumulated in
`context.user_data`; `none` means the field was not stored yet. -/
structure UserData where
  source_type : Option Str := none
  private_reason : Option Str := none
  name : Option Str := none
  maintainer_alias : Option Str := none
  github_user : Option Str := none
  device : Option Str := none
  dt : Option Str := none
  dt_c : Option Str := none
  vt : Option Str := none
  vt_c : Option Str := none
  kernel : Option Str := none
  support : Option Str := none
deriving DecidableEq, Repr

/-- The empty interview record a fresh conversation starts from. -/
def emptyUD : UserData := {}

/-! ## Link validation (`is_valid_url`, lines 250-253)

The Python check is `url.lower() == 'none'` or a match of
`^https?://(www\.)?(github|gitlab|t\.me|bitbucket|gitea|codeberg)\.com/.+`
anchored at the start; `.` does not cross a newline, so the character
right after the host must exist and not be a newline. -/

/-- Python `str.lower` (the inputs of interest are ASCII). -/
def lowerStr (s : Str) : Str := s.map Char.toLower

/-- The host alternation of the regex in `is_valid_url`. -/
def allowedHostNames : List Str :=
  [strOf "github", strOf "gitlab", strOf "t.me", strOf "bitbucket",
   strOf "gitea", strOf "codeberg"]

/-- Does `s` start with `host ++ ".com/"` for an allow-listed host,
followed by at least one non-newline character (the regex `.+`)? -/
def hostMatch (s : Str) : Bool :=
  allowedHostNames.any (fun h =>
    (h ++ strOf ".com/").isPrefixOf s &&
    match s.drop (h.length + 5) with
    | [] => false
    | c :: _ => !(c = '\n'))

/-- Embedding of `is_valid_url` (lines 250-253). -/
def is_valid_url (s : Str) : Bool :=
  if lowerStr s = strOf "none" then true
  else
    let afterScheme : Option Str :=
      if (strOf "https://").isPrefixOf s then some (s.drop 8)
      else if (strOf "http://").isPrefixOf s then some (s.drop 7)
      else none
    match afterScheme with
    | none => false
    | some r => hostMatch r || ((strOf "www.").isPrefixOf r && hostMatch (r.drop 4))

/-! ## Intake handlers

Each handler takes the message text and the interview record (and, where
the source touches it, the durable bot state) and returns the successor
state with the updated records. -/

/-- Embedding of `rules_logic` (lines 340-353): only the exact accept
button advances; anything else declines and ends the conversation. -/
def rules_logic (t : Str) (ud : UserData) (bd : BotData) : Next × UserData × BotData :=
  if t = strOf "✅ I Accept the Terms" then (.state .SOURCE_TYPE_CHECK, ud, bd)
  else (.ended, ud, bd)

/-- Embedding of `check_source_type` (lines 355-386). -/
def check_source_type (t : Str) (ud : UserData) (bd : BotData) : Next × UserData × BotData :=
  let ud' : UserData := { ud with source_type := some t }
  if t = strOf "🌍 Public" then (.state .FULL_NAME, ud', bd)
  else if t = strOf "🔒 Private" then (.state .PRIVATE_REASON, ud', bd)
  else (.state .SOURCE_TYPE_CHECK, ud', bd)

/-- Embedding of `get_private_reason` (lines 388-400). -/
def get_private_reason (t : Str) (ud : UserData) (bd : BotData) : Next × UserData × BotData :=
  (.state .PRIVATE_ACCESS_AGREEMENT, { ud with private_reason := some t }, bd)

/-- Embedding of `check_private_agreement` (lines 402-420): only the
exact agree button advances to identity collection; anything else
declines and ends the conversation. -/
def check_private_agreement (t : Str) (ud : UserData) (bd : BotData) :
    Next × UserData × BotData :=
  if t = strOf "✅ Yes, I Agree" then (.state .FULL_NAME, ud, bd)
  else (.ended, ud, bd)

/-- Embedding of `get_dt` (lines 507-520): re-ask on an invalid link,
otherwise store and move to the device-common step. -/
def get_dt (t : Str) (ud : UserData) : Next × UserData :=
  if !is_valid_url t then (.state .DEVICE_TREE, ud)
  else (.state .DEVICE_COMMON, { ud with dt := some t })

/-- Embedding of `get_dt_common` (lines 522-530): stores the input with
no validation and moves on. -/
def get_dt_common (t : Str) (ud : UserData) : Next × UserData :=
  (.state .VENDOR_TREE, { ud with dt_c := some t })

/-- Embedding of `get_vt` (lines 532-545). -/
def get_vt (t : Str) (ud : UserData) : Next × UserData :=
  if !is_valid_url t then (.state .VENDOR_TREE, ud)
  else (.state .VENDOR_COMMON, { ud with vt := some t })

/-- Embedding of `get_vt_common` (lines 547-555): stores the input with
no validation and moves on. -/
def get_vt_common (t : Str) (ud : UserData) : Next × UserData :=
  (.state .KERNEL_SOURCE, { ud with vt_c := some t })

/-- Embedding of `get_kernel` (lines 557-571). -/
def get_kernel (t : Str) (ud : UserData) : Next × UserData :=
  if !is_valid_url t then (.state .KERNEL_SOURCE, ud)
  else (.state .SUPPORT_LINK, { ud with kernel := some t })

/-! ## GitHub-handle step (`get_github`, lines 445-494) -/

/-- Python whitespace characters stripped by `str.strip()`. -/
def isPySpace (c : Char) : Bool := [32, 9, 10, 13, 11, 12].contains c.toNat

/-- Embedding of `str.strip()`. -/
def pyStrip (s : Str) : Str :=
  ((s.dropWhile isPySpace).reverse.dropWhile isPySpace).reverse

/-- Python `str.replace(pat, '')`: erase every occurrence of `pat`,
scanning left to right without overlap.  Fuel-indexed so the kernel can
evaluate it; `s.length` fuel always suffices. -/
def eraseOccsFuel (pat : Str) : Nat → Str → Str
  | 0, s => s
  | _ + 1, [] => []
  | fuel + 1, c :: rest =>
      if !pat.isEmpty && pat.isPrefixOf (c :: rest) then
        eraseOccsFuel pat fuel ((c :: rest).drop pat.length)
      else c :: eraseOccsFuel pat fuel rest

/-- Erase every occurrence of `pat` from `s` (Python `s.replace(pat, '')`). -/
def eraseOccs (pat s : Str) : Str := eraseOccsFuel pat s.length s

/-- Python `str.rstrip('/')`. -/
def rstripSlash (s : Str) : Str := (s.reverse.dropWhile (fun c => c = '/')).reverse

/-- Input cleaning in `get_github` (line 450): strip surrounding
whitespace, erase every occurrence of the scheme, `www.`,
`github.com/` and `@`, then drop trailing slashes. -/
def cleanGithubInput (raw : Str) : Str :=
  rstripSlash (eraseOccs (strOf "@")
    (eraseOccs (strOf "github.com/")
      (eraseOccs (strOf "www.")
        (eraseOccs (strOf "http://")
          (eraseOccs (strOf "https://") (pyStrip raw))))))

/-- Result of the GitHub user lookup: an HTTP status, or a transport
failure (the `except` branch). -/
inductive ApiResult
  | status (code : Nat)
  | failure
deriving DecidableEq, Repr

/-- Embedding of `get_github` (lines 445-494): clean the input; re-ask
when the cleaned name is empty or still has a slash or a space; re-ask
on a 404 from the user lookup; on any other status or a transport
failure, store the cleaned username and move on (soft fail). -/
def get_github (raw : Str) (api : ApiResult) (ud : UserData) : Next × UserData :=
  let username := cleanGithubInput raw
  if username.contains '/' || username.contains ' ' || username.isEmpty then
    (.state .GITHUB_URL, ud)
  else if api = .status 404 then (.state .GITHUB_URL, ud)
  else (.state .DEVICE_INFO, { ud with github_user := some username })

/-! ## Claim theorems -/

/-- C2: `RegistrySync.commit` is idempotent and deduplicating: for every
registry content and every alias, if the alias already appears as an
exact line of the fetched content, the commit reports it as already
present, succeeds, and leaves the registry unchanged; otherwise the
alias is appended on its own line, with a trailing newline inserted
first whenever the fetched content does not already end in one. -/
theorem C2_commit_dedup (remote : Remote) (newLine : Str) :
    ((pySplitlines remote.content).contains newLine = true →
      add_maintainer newLine remote = (.alreadyPresent, remote) ∧
      (add_maintainer newLine remote).1.isSuccess = true) ∧
    ((pySplitlines remote.content).contains newLine = false →
      add_maintainer newLine remote =
        (.committed,
         ⟨(if endsWithNl remote.content then remote.content
           else remote.content ++ strOf "\n") ++ newLine ++ strOf "\n",
          remote.sha + 1⟩)) := by
  constructor
  · intro h
    have h' : newLine ∈ pySplitlines remote.content := by simpa using h
    constructor <;>
      simp [add_maintainer, add_maintainer_to_github, h', CommitOutcome.isSuccess]
  · intro h
    have h' : newLine ∉ pySplitlines remote.content := by simpa using h
    simp [add_maintainer, add_maintainer_to_github, h', remotePut, buildNewContent]

theorem C2_commit_dedup_witness :
    (add_maintainer (strOf "alice") ⟨strOf "alice\n", 0⟩ =
      (.alreadyPresent, ⟨strOf "alice\n", 0⟩)) ∧
    (add_maintainer (strOf "bob") ⟨strOf "alice", 5⟩ =
      (.committed, ⟨strOf "alice\nbob\n", 6⟩)) := by
  constructor
  · exact ((C2_commit_dedup ⟨strOf "alice\n", 0⟩ (strOf "alice")).1 (by decide)).1
  · exact ((C2_commit_dedup ⟨strOf "alice", 5⟩ (strOf "bob")).2 (by decide)).trans
      (by decide)

/-- C3: a commit is conditioned on the version token of the immediately
preceding fetch: if the remote changed in between, the PUT is rejected
with the distinct version-conflict outcome and the concurrent content is
not overwritten, while the surrounding accept decision still completes —
the pending entry is removed, the summary is stamped and the applicant
is notified, the conflict being reported only as an inline warning. -/
theorem C3_version_conflict (uid : Nat) (bd : BotData) (app : AppRec)
    (c0 : Str) (s0 : Nat) (remote : Remote)
    (hp : alookup uid bd.pending = some app)
    (hn : (pySplitlines c0).contains app.maintainer_alias = false)
    (hs : s0 ≠ remote.sha) :
    (acceptExecute uid bd true (some (c0, s0)) remote).gh =
        .resolved .versionConflict ∧
    (acceptExecute uid bd true (some (c0, s0)) remote).remote' = remote ∧
    (acceptExecute uid bd true (some (c0, s0)) remote).pending' =
        aerase uid bd.pending ∧
    (acceptExecute uid bd true (some (c0, s0)) remote).userNotified = true ∧
    (acceptExecute uid bd true (some (c0, s0)) remote).adminBannerEdited = true := by
  have hn' : app.maintainer_alias ∉ pySplitlines c0 := by simpa using hn
  have hput : remotePut remote s0 (buildNewContent c0 app.maintainer_alias) =
      (false, remote) := by simp [remotePut, hs]
  simp [acceptExecute, hp, add_maintainer_to_github, hn', hput]

theorem C3_version_conflict_witness :
    (acceptExecute 7 ⟨[(7, ⟨strOf "alice", strOf "Al"⟩)], []⟩ true
        (some (strOf "x\n", 0)) ⟨strOf "x\ny\n", 1⟩).gh =
      .resolved .versionConflict ∧
    (acceptExecute 7 ⟨[(7, ⟨strOf "alice", strOf "Al"⟩)], []⟩ true
        (some (strOf "x\n", 0)) ⟨strOf "x\ny\n", 1⟩).remote' =
      ⟨strOf "x\ny\n", 1⟩ ∧
    (acceptExecute 7 ⟨[(7, ⟨strOf "alice", strOf "Al"⟩)], []⟩ true
        (some (strOf "x\n", 0)) ⟨strOf "x\ny\n", 1⟩).pending' = [] := by
  have h := C3_version_conflict 7 ⟨[(7, ⟨strOf "alice", strOf "Al"⟩)], []⟩
    ⟨strOf "alice", strOf "Al"⟩ (strOf "x\n") 0 ⟨strOf "x\ny\n", 1⟩
    (by decide) (by decide) (by decide)
  exact ⟨h.1, h.2.1, h.2.2.1.trans (by decide)⟩

/-- C1 counterexample: with the applicant already absent from the
pending map (the state after a terminal decision), a repeated
AcceptExecute still notifies the applicant, and a repeated RejectExecute
with a positive cooldown selection still notifies the applicant and
writes a fresh cooldown entry — so a second invocation is not free of
side effects as the claim states. -/
theorem C1_counterexample :
    (acceptExecute 1 ⟨[], []⟩ true (some (strOf "", 0)) ⟨strOf "", 0⟩).userNotified =
      true ∧
    (acceptExecute 1 ⟨[], []⟩ true (some (strOf "", 0)) ⟨strOf "", 0⟩).gh =
      .notFoundInMemory ∧
    (finalize_rejection 1 (strOf "r") none 7 100 ⟨[], []⟩).notifiedUser = true ∧
    (finalize_rejection 1 (strOf "r") none 7 100 ⟨[], []⟩).cooldowns' =
      [(1, .structured 107 (strOf "Unknown"))] := by
  refine ⟨rfl, rfl, rfl, by decide⟩

/-- C1 (amended): once the applicant is gone from the pending map, a
second AcceptExecute performs no registry commit and no pending-map or
interview-data change, reporting instead that the user data could not be
found — but it still attempts an invite link and re-sends the acceptance
notice; a second RejectExecute likewise leaves the pending map unchanged
but re-sends the rejection notice and, when the selected cooldown days
are positive, writes a fresh cooldown entry keyed to the applicant. -/
theorem C1_second_invocation (uid : Nat) (bd : BotData) (cfgOk : Bool)
    (fetched : Option (Str × Nat)) (remote : Remote)
    (base : Str) (note : Option Str) (days now : Nat)
    (h : alookup uid bd.pending = none) :
    acceptExecute uid bd cfgOk fetched remote =
      { inviteAttempted := true, gh := .notFoundInMemory, pending' := bd.pending
        userDataCleared := false, adminBannerEdited := true, userNotified := true
        remote' := remote } ∧
    (finalize_rejection uid base note days now bd).pending' = bd.pending ∧
    (finalize_rejection uid base note days now bd).notifiedUser = true ∧
    (0 < days →
      (finalize_rejection uid base note days now bd).cooldowns' =
        aset uid (.structured (now + days) (strOf "Unknown")) bd.cooldowns) := by
  refine ⟨?_, ?_, rfl, ?_⟩
  · simp [acceptExecute, h]
  · simp [finalize_rejection, aerase_of_alookup_none uid bd.pending h]
  · intro hd
    simp [finalize_rejection, h, hd]

theorem C1_second_invocation_witness :
    acceptExecute 9 ⟨[], [(2, .legacy 5)]⟩ true (some (strOf "m\n", 3)) ⟨strOf "m\n", 3⟩ =
      { inviteAttempted := true, gh := .notFoundInMemory, pending' := []
        userDataCleared := false, adminBannerEdited := true, userNotified := true
        remote' := ⟨strOf "m\n", 3⟩ } ∧
    (finalize_rejection 9 (strOf "r") none 3 10 ⟨[], [(2, .legacy 5)]⟩).cooldowns' =
      [(2, .legacy 5), (9, .structured 13 (strOf "Unknown"))] := by
  have h := C1_second_invocation 9 ⟨[], [(2, .legacy 5)]⟩ true (some (strOf "m\n", 3))
    ⟨strOf "m\n", 3⟩ (strOf "r") none 3 10 (by decide)
  exact ⟨h.1, (h.2.2.2 (by decide)).trans (by decide)⟩

/-- C4 counterexample: the fallback for an absent key is the fixed
string "Application Declined.", not the catalog's "other" entry, and
`remove_template` deletes the "other" key like any other — after
removing it, "other" no longer resolves from the catalog. -/
theorem C4_counterexample :
    resolveReason DEFAULT_TEMPLATES (strOf "missing_key") =
      strOf "Application Declined." ∧
    alookup (strOf "other") DEFAULT_TEMPLATES ≠
      some (strOf "Application Declined.") ∧
    remove_template DEFAULT_TEMPLATES (strOf "other") =
      some (aerase (strOf "other") DEFAULT_TEMPLATES) ∧
    alookup (strOf "other") (aerase (strOf "other") DEFAULT_TEMPLATES) = none := by
  refine ⟨rfl, by decide, rfl, rfl⟩

/-- C4 (amended): template resolution falls back to the fixed non-empty
default text "Application Declined." for a key absent from the catalog
(rather than going through the "other" entry), returns the stored text
for a present key, and the "other" key has no protection —
`remove_template` deletes it whenever it is present. -/
theorem C4_template_fallback (ts : List (Str × Str)) (key : Str) :
    (alookup key ts = none →
      resolveReason ts key = strOf "Application Declined." ∧
      resolveReason ts key ≠ []) ∧
    (∀ v, alookup key ts = some v → resolveReason ts key = v) ∧
    ((alookup (strOf "other") ts).isSome = true →
      remove_template ts (strOf "other") = some (aerase (strOf "other") ts) ∧
      alookup (strOf "other") (aerase (strOf "other") ts) = none) := by
  refine ⟨fun h => ⟨by simp [resolveReason, h], by simp [resolveReason, h, strOf]⟩,
    fun v h => by simp [resolveReason, h],
    fun h => ⟨by simp [remove_template, h], alookup_aerase_self _ _⟩⟩

theorem C4_template_fallback_witness :
    resolveReason [] (strOf "other") = strOf "Application Declined." ∧
    resolveReason DEFAULT_TEMPLATES (strOf "history") =
      strOf "❌ <b>Maintainer History:</b> Your maintenance history or activity levels do not meet our current requirements." ∧
    remove_template DEFAULT_TEMPLATES (strOf "other") =
      some (aerase (strOf "other") DEFAULT_TEMPLATES) := by
  refine ⟨((C4_template_fallback [] (strOf "other")).1 rfl).1,
    (C4_template_fallback DEFAULT_TEMPLATES (strOf "history")).2.1 _ (by decide),
    ((C4_template_fallback DEFAULT_TEMPLATES (strOf "other")).2.2 (by decide)).1⟩

/-- C5: the intake entry guard: a missing public handle, a live
(unexpired) cooldown entry, or an existing pending application each end
the conversation at `start` before any interview state is entered, and
`start` never creates or removes a pending application — in particular a
live cooldown always prevents a new application. -/
theorem C5_entry_guard (hasUsername : Bool) (uid now : Nat) (bd : BotData) :
    (hasUsername = false → start hasUsername uid now bd = (.ended, bd)) ∧
    (∀ d, alookup uid bd.cooldowns = some d → now < d.expiry →
      start hasUsername uid now bd = (.ended, bd)) ∧
    ((alookup uid bd.pending).isSome = true →
      (start hasUsername uid now bd).1 = .ended) ∧
    (start hasUsername uid now bd).2.pending = bd.pending := by
  refine ⟨fun h => by simp [start, h], fun d hd hlt => ?_, fun hp => ?_, ?_⟩
  · cases hasUsername with
    | false => simp [start]
    | true => simp [start, cooldownGate, hd, hlt]
  · cases hasUsername with
    | false => simp [start]
    | true =>
        simp only [start, Bool.not_true, Bool.false_eq_true, if_false]
        rcases hg : cooldownGate uid now bd.cooldowns with ⟨ban, cds'⟩
        cases ban <;> simp [hg, hp]
  · cases hasUsername with
    | false => simp [start]
    | true =>
        simp only [start, Bool.not_true, Bool.false_eq_true, if_false]
        rcases hg : cooldownGate uid now bd.cooldowns with ⟨ban, cds'⟩
        cases ban <;> by_cases hp : (alookup uid bd.pending).isSome <;> simp [hg, hp]

theorem C5_entry_guard_witness :
    start true 4 10 ⟨[], [(4, .structured 25 (strOf "Dana"))]⟩ =
      (.ended, ⟨[], [(4, .structured 25 (strOf "Dana"))]⟩) ∧
    (start true 5 0 ⟨[(5, ⟨strOf "a", strOf "n"⟩)], []⟩).1 = .ended ∧
    start false 6 0 ⟨[], []⟩ = (.ended, ⟨[], []⟩) := by
  refine ⟨(C5_entry_guard true 4 10 _).2.1 (.structured 25 (strOf "Dana"))
      (by decide) (by decide),
    (C5_entry_guard true 5 0 _).2.2.1 (by decide),
    (C5_entry_guard false 6 0 _).1 rfl⟩

/-- Deleting a batch of keys one at a time keeps exactly the pairs whose
key is outside the batch. -/
theorem foldl_aerase_eq_filter {α : Type} (rem : List Nat) (l : List (Nat × α)) :
    rem.foldl (fun acc u => aerase u acc) l =
      l.filter (fun p => !decide (p.1 ∈ rem)) := by
  induction rem generalizing l with
  | nil => simp
  | cons r rem ih =>
      simp only [List.foldl_cons]
      rw [ih, aerase, List.filter_filter]
      refine List.filter_congr (fun p _ => ?_)
      by_cases h1 : p.1 = r <;> by_cases h2 : p.1 ∈ rem <;>
        simp [h1, h2, List.mem_cons]

/-- C6: cooldown expiry is monotonic and pruned lazily: the intake-entry
cooldown check reports no ban as soon as `expiresAt <= now` and deletes
the expired entry it just observed (and conversely still reports the
expiry while `now < expiresAt`); the admin listing lists exactly the
unexpired entries and, as a side effect, the stored map keeps exactly
the unexpired entries. -/
theorem C6_cooldown_expiry (uid now : Nat) (cds : List (Nat × CooldownData)) :
    (∀ d, alookup uid cds = some d → d.expiry ≤ now →
      cooldownGate uid now cds = (none, aerase uid cds)) ∧
    (∀ d, alookup uid cds = some d → now < d.expiry →
      cooldownGate uid now cds = (some d.expiry, cds)) ∧
    ((check_cooldowns now cds).1 =
      (cds.filter (fun p => decide (now < p.2.expiry))).map (fun p => (p.1, p.2.expiry))) ∧
    (cds.Pairwise (fun a b => a.1 ≠ b.1) →
      (check_cooldowns now cds).2 = cds.filter (fun p => decide (now < p.2.expiry))) := by
  refine ⟨fun d hd hle => by simp [cooldownGate, hd, Nat.not_lt.mpr hle],
    fun d hd hlt => by simp [cooldownGate, hd, hlt], rfl, fun hnd => ?_⟩
  show ((cds.filter (fun p => !decide (now < p.2.expiry))).map (fun p => p.1)).foldl
      (fun acc u => aerase u acc) cds = _
  rw [foldl_aerase_eq_filter]
  refine List.filter_congr (fun p hp => ?_)
  by_cases hc : now < p.2.expiry
  · have : p.1 ∉ (cds.filter (fun q => !decide (now < q.2.expiry))).map (fun q => q.1) := by
      intro hmem
      obtain ⟨q, hq, hkey⟩ := List.mem_map.mp hmem
      have hqf := List.mem_filter.mp hq
      have hne : q ≠ p := by
        intro e
        rw [e] at hqf
        simp [hc] at hqf
      have hsym : Symmetric (fun a b : Nat × CooldownData => a.1 ≠ b.1) :=
        fun a b h => Ne.symm h
      exact (hnd.forall hsym hqf.1 hp hne) hkey
    simp [hc, this]
  · have : p.1 ∈ (cds.filter (fun q => !decide (now < q.2.expiry))).map (fun q => q.1) :=
      List.mem_map.mpr ⟨p, List.mem_filter.mpr ⟨hp, by simp [hc]⟩, rfl⟩
    simp [hc, this]

theorem C6_cooldown_expiry_witness :
    cooldownGate 1 10 [(1, .legacy 5), (2, .structured 20 (strOf "Bob"))] =
      (none, [(2, .structured 20 (strOf "Bob"))]) ∧
    cooldownGate 2 10 [(1, .legacy 5), (2, .structured 20 (strOf "Bob"))] =
      (some 20, [(1, .legacy 5), (2, .structured 20 (strOf "Bob"))]) ∧
    check_cooldowns 10 [(1, .legacy 5), (2, .structured 20 (strOf "Bob"))] =
      ([(2, 20)], [(2, .structured 20 (strOf "Bob"))]) := by
  have h1 := C6_cooldown_expiry 1 10 [(1, .legacy 5), (2, .structured 20 (strOf "Bob"))]
  have h2 := C6_cooldown_expiry 2 10 [(1, .legacy 5), (2, .structured 20 (strOf "Bob"))]
  refine ⟨(h1.1 (.legacy 5) (by decide) (by decide)).trans (by decide),
    h2.2.1 (.structured 20 (strOf "Bob")) (by decide) (by decide), ?_⟩
  have hp := h1.2.2.2 (by decide)
  have hl := h1.2.2.1
  calc check_cooldowns 10 [(1, .legacy 5), (2, .structured 20 (strOf "Bob"))]
      = ((check_cooldowns 10 [(1, .legacy 5), (2, .structured 20 (strOf "Bob"))]).1,
         (check_cooldowns 10 [(1, .legacy 5), (2, .structured 20 (strOf "Bob"))]).2) := rfl
    _ = ([(2, 20)], [(2, .structured 20 (strOf "Bob"))]) := by rw [hp, hl]; decide

/-- C7 counterexample: when the selected template key has vanished from
the catalog, RejectExecute resolves the reason to the fixed text
"Application Declined.", which is not the catalog's "other" entry — the
claimed fallback to the "other" key does not happen. -/
theorem C7_counterexample :
    resolveReason (aerase (strOf "quality") DEFAULT_TEMPLATES) (strOf "quality") =
      strOf "Application Declined." ∧
    alookup (strOf "other") (aerase (strOf "quality") DEFAULT_TEMPLATES) =
      some (strOf "❌ <b>Application Declined:</b> Thank you for your interest, but we cannot accept your application at this time.") ∧
    strOf "Application Declined." ≠
      strOf "❌ <b>Application Declined:</b> Thank you for your interest, but we cannot accept your application at this time." := by
  refine ⟨rfl, rfl, by decide⟩

/-- C7 (amended): RejectExecute resolves the chosen template key to its
text, falling back to the fixed default "Application Declined." (not the
catalog's "other" entry) if the key vanished; appends the optional note;
writes a cooldown entry with `expiresAt = now + days` exactly when the
selected days are positive, recording the pending display name (or
"Unknown"); removes the applicant from the pending map and clears the
interview answers; notifies the applicant, showing the resume date
exactly when a cooldown applies; and stamps the summary with a banner
carrying the reason, note and cooldown. -/
theorem C7_reject_execute (ts : List (Str × Str)) (key : Str) (note : Option Str)
    (days now uid : Nat) (bd : BotData) :
    (alookup key ts = none →
      resolveReason ts key = strOf "Application Declined.") ∧
    ((finalize_rejection uid (resolveReason ts key) note days now bd).fullReason =
      resolveReason ts key ++ noteSuffix note) ∧
    (0 < days →
      (finalize_rejection uid (resolveReason ts key) note days now bd).cooldowns' =
        aset uid
          (.structured (now + days)
            ((alookup uid bd.pending).elim (strOf "Unknown") (fun a => a.name)))
          bd.cooldowns ∧
      (finalize_rejection uid (resolveReason ts key) note days now bd).resumeDateShown =
        true) ∧
    (days = 0 →
      (finalize_rejection uid (resolveReason ts key) note days now bd).cooldowns' =
        bd.cooldowns ∧
      (finalize_rejection uid (resolveReason ts key) note days now bd).resumeDateShown =
        false) ∧
    (finalize_rejection uid (resolveReason ts key) note days now bd).pending' =
      aerase uid bd.pending ∧
    alookup uid (finalize_rejection uid (resolveReason ts key) note days now bd).pending' =
      none ∧
    (finalize_rejection uid (resolveReason ts key) note days now bd).userDataCleared =
      true ∧
    (finalize_rejection uid (resolveReason ts key) note days now bd).notifiedUser = true ∧
    (finalize_rejection uid (resolveReason ts key) note days now bd).bannerReason =
      resolveReason ts key ∧
    (finalize_rejection uid (resolveReason ts key) note days now bd).bannerCooldownDays =
      (if 0 < days then some days else none) := by
  refine ⟨fun h => by simp [resolveReason, h], rfl, fun hd => ⟨?_, ?_⟩,
    fun hd => ⟨?_, ?_⟩, rfl, alookup_aerase_self _ _, rfl, rfl, rfl, rfl⟩
  · cases ha : alookup uid bd.pending <;> simp [finalize_rejection, hd, ha]
  · simp [finalize_rejection, hd]
  · simp [finalize_rejection, hd]
  · simp [finalize_rejection, hd]

theorem C7_reject_execute_witness :
    (finalize_rejection 3
        (resolveReason DEFAULT_TEMPLATES (strOf "quality"))
        (some (strOf "please update vendor tree")) 7 100
        ⟨[(3, ⟨strOf "mx", strOf "Max"⟩)], []⟩).cooldowns' =
      [(3, .structured 107 (strOf "Max"))] ∧
    (finalize_rejection 3
        (resolveReason DEFAULT_TEMPLATES (strOf "quality"))
        (some (strOf "please update vendor tree")) 7 100
        ⟨[(3, ⟨strOf "mx", strOf "Max"⟩)], []⟩).fullReason =
      strOf "❌ <b>Quality Standards:</b> The ROM stability or provided builds do not meet AfterlifeOS quality criteria." ++
        strOf "\n\n📝 <b>Admin Note:</b>\n<i>" ++ strOf "please update vendor tree" ++
        strOf "</i>" ∧
    alookup 3 (finalize_rejection 3
        (resolveReason DEFAULT_TEMPLATES (strOf "quality"))
        (some (strOf "please update vendor tree")) 7 100
        ⟨[(3, ⟨strOf "mx", strOf "Max"⟩)], []⟩).pending' = none := by
  have h := C7_reject_execute DEFAULT_TEMPLATES (strOf "quality")
    (some (strOf "please update vendor tree")) 7 100 3
    ⟨[(3, ⟨strOf "mx", strOf "Max"⟩)], []⟩
  refine ⟨((h.2.2.1 (by decide)).1).trans (by decide), h.2.1.trans (by decide),
    h.2.2.2.2.2.1⟩

/-- C8: any input at the rules step other than the exact acceptance
button, and any input at the privacy-access step other than the exact
agreement button, ends the conversation at once, and neither handler
writes an interview field or touches the durable state — so no
application is created and nothing enters the pending map; an applicant
with private sources who declines access consent is ended before the
identity state is reached. -/
theorem C8_decline_terminates (t : Str) (ud : UserData) (bd : BotData) :
    (t ≠ strOf "✅ I Accept the Terms" →
      rules_logic t ud bd = (.ended, ud, bd)) ∧
    (t ≠ strOf "✅ Yes, I Agree" →
      check_private_agreement t ud bd = (.ended, ud, bd)) ∧
    (rules_logic t ud bd).2 = (ud, bd) ∧
    (check_private_agreement t ud bd).2 = (ud, bd) := by
  refine ⟨fun h => by simp [rules_logic, h], fun h => by simp [check_private_agreement, h],
    ?_, ?_⟩
  · by_cases h : t = strOf "✅ I Accept the Terms" <;> simp [rules_logic, h]
  · by_cases h : t = strOf "✅ Yes, I Agree" <;> simp [check_private_agreement, h]

theorem C8_decline_terminates_witness :
    rules_logic (strOf "❌ Decline") emptyUD ⟨[], []⟩ = (.ended, emptyUD, ⟨[], []⟩) ∧
    check_private_agreement (strOf "❌ No, I Refuse")
        { emptyUD with source_type := some (strOf "🔒 Private") } ⟨[], []⟩ =
      (.ended, { emptyUD with source_type := some (strOf "🔒 Private") }, ⟨[], []⟩) := by
  exact ⟨(C8_decline_terminates (strOf "❌ Decline") emptyUD ⟨[], []⟩).1 (by decide),
    (C8_decline_terminates (strOf "❌ No, I Refuse") _ ⟨[], []⟩).2.1 (by decide)⟩

/-- C9 counterexample: the device-common step accepts an input that is
neither a valid allow-listed URL nor the sentinel — it stores the text
unchanged and advances to the vendor-tree step instead of re-asking, so
not all five source-location steps validate their input. -/
theorem C9_counterexample :
    is_valid_url (strOf "not a url") = false ∧
    get_dt_common (strOf "not a url") emptyUD =
      (.state .VENDOR_TREE, { emptyUD with dt_c := some (strOf "not a url") }) ∧
    get_vt_common (strOf "not a url") emptyUD =
      (.state .KERNEL_SOURCE, { emptyUD with vt_c := some (strOf "not a url") }) := by
  refine ⟨by decide, rfl, rfl⟩

/-- C9 (amended): of the five source-location steps, the device-tree,
vendor-tree and kernel steps accept exactly the inputs `is_valid_url`
accepts (an http/https URL on an allow-listed host followed by a path,
or the sentinel "none" case-insensitively), re-asking the very same step
on any other input and storing the value and advancing on acceptance;
the device-common and vendor-common steps accept any input
unconditionally, storing it and advancing. -/
theorem C9_source_link_steps (t : Str) (ud : UserData) :
    (is_valid_url t = false →
      get_dt t ud = (.state .DEVICE_TREE, ud) ∧
      get_vt t ud = (.state .VENDOR_TREE, ud) ∧
      get_kernel t ud = (.state .KERNEL_SOURCE, ud)) ∧
    (is_valid_url t = true →
      get_dt t ud = (.state .DEVICE_COMMON, { ud with dt := some t }) ∧
      get_vt t ud = (.state .VENDOR_COMMON, { ud with vt := some t }) ∧
      get_kernel t ud = (.state .SUPPORT_LINK, { ud with kernel := some t })) ∧
    (lowerStr t = strOf "none" → is_valid_url t = true) ∧
    get_dt_common t ud = (.state .VENDOR_TREE, { ud with dt_c := some t }) ∧
    get_vt_common t ud = (.state .KERNEL_SOURCE, { ud with vt_c := some t }) := by
    refine ⟨fun h => ?_, fun h => ?_, fun h => by simp [is_valid_url, h], rfl, rfl⟩ <;>
      exact ⟨by simp [get_dt, h], by simp [get_vt, h], by simp [get_kernel, h]⟩

theorem C9_source_link_steps_witness :
    get_dt (strOf "ftp://github.com/x") emptyUD = (.state .DEVICE_TREE, emptyUD) ∧
    get_dt (strOf "https://github.com/MyUser/device_xiaomi_mojito") emptyUD =
      (.state .DEVICE_COMMON,
       { emptyUD with dt := some (strOf "https://github.com/MyUser/device_xiaomi_mojito") }) ∧
    is_valid_url (strOf "None") = true := by
  refine ⟨((C9_source_link_steps (strOf "ftp://github.com/x") emptyUD).1 (by decide)).1,
    ((C9_source_link_steps (strOf "https://github.com/MyUser/device_xiaomi_mojito")
      emptyUD).2.1 (by decide)).1,
    (C9_source_link_steps (strOf "None") emptyUD).2.2.1 (by decide)⟩

/-- C10: the GitHub-handle step first cleans the input (strip, erase the
scheme, "www.", "github.com/" and "@", drop trailing slashes); it
re-asks the same step when the cleaned name is empty or still contains a
slash or a space, and when the user lookup returns 404; on any other
lookup status or a transport failure it proceeds, storing the cleaned
username and advancing to the device-info step. -/
theorem C10_github_step (raw : Str) (api : ApiResult) (ud : UserData) :
    (((cleanGithubInput raw).contains '/' || (cleanGithubInput raw).contains ' ' ||
        (cleanGithubInput raw).isEmpty) = true →
      get_github raw api ud = (.state .GITHUB_URL, ud)) ∧
    (((cleanGithubInput raw).contains '/' || (cleanGithubInput raw).contains ' ' ||
        (cleanGithubInput raw).isEmpty) = false →
      (api = .status 404 → get_github raw api ud = (.state .GITHUB_URL, ud)) ∧
      (api ≠ .status 404 →
        get_github raw api ud =
          (.state .DEVICE_INFO, { ud with github_user := some (cleanGithubInput raw) }))) := by
  refine ⟨fun h => ?_, fun h => ⟨fun ha => ?_, fun ha => ?_⟩⟩
  · simp only [get_github, h]
    rfl
  · simp only [get_github, h, ha]
    rfl
  · simp only [get_github, h]
    rw [if_neg (by simp), if_neg ha]

theorem C10_github_step_witness :
    get_github (strOf "  https://github.com/johndoe/  ") (.status 200) emptyUD =
      (.state .DEVICE_INFO, { emptyUD with github_user := some (strOf "johndoe") }) ∧
    get_github (strOf "johndoe") (.status 404) emptyUD = (.state .GITHUB_URL, emptyUD) ∧
    get_github (strOf "a b") .failure emptyUD = (.state .GITHUB_URL, emptyUD) ∧
    get_github (strOf "@johndoe") .failure emptyUD =
      (.state .DEVICE_INFO, { emptyUD with github_user := some (strOf "johndoe") }) := by
  refine ⟨(((C10_github_step (strOf "  https://github.com/johndoe/  ") (.status 200)
        emptyUD).2 (by decide)).2 (by decide)).trans (by decide),
    ((C10_github_step (strOf "johndoe") (.status 404) emptyUD).2 (by decide)).1 rfl,
    (C10_github_step (strOf "a b") .failure emptyUD).1 (by decide),
    (((C10_github_step (strOf "@johndoe") .failure emptyUD).2 (by decide)).2
      (by decide)).trans (by decide)⟩

end MaintainerBot
